import Mathlib

/-!
# Verification of the simple note-taking tool server (`src/server.py`)

Shallow embedding of the note server: the note collection is a Python
`dict[str, str]`, modelled as an insertion-ordered association list; the
tool dispatcher `handle_call_tool` is modelled as a pure function from the
tool name, the argument mapping and the loaded collection to either a
raised error (`KeyError` on a missing argument, `ValueError` on an unknown
tool) or a list of text contents together with the collection passed to
`save_notes`, if any.  The storage layer (`load_notes` / `save_notes`,
backed by `json.dump(notes, f, indent=2)` / `json.load`) is modelled by a
concrete JSON codec over the file's character contents.
-/

namespace NotesServer

/-- A `TextContent(type="text", text=...)` result item. -/
structure TextContent where
  type : String
  text : String
deriving DecidableEq, Repr

/-- The note collection: a Python `dict[str, str]`, i.e. an
insertion-ordered association list from titles to contents. -/
abbrev Notes := List (String × String)

/-- `d.get(k)` / `k in d` on a Python dict: the value at the first
occurrence of key `k`. -/
def lookup? (notes : Notes) (k : String) : Option String :=
  match notes with
  | [] => none
  | (k', v) :: rest => if k' = k then some v else lookup? rest k

/-- `d[k] = v` on a Python dict: replace the value in place if the key is
present, otherwise append the new binding at the end (insertion order). -/
def setKey (notes : Notes) (k v : String) : Notes :=
  match notes with
  | [] => [(k, v)]
  | (k', v') :: rest => if k' = k then (k', v) :: rest else (k', v') :: setKey rest k v

/-- `del d[k]` on a Python dict: remove the binding at key `k`. -/
def delKey (notes : Notes) (k : String) : Notes :=
  match notes with
  | [] => []
  | (k', v') :: rest => if k' = k then rest else (k', v') :: delKey rest k

/-- `arguments[k]`: lookup in the argument mapping. -/
def getArg (arguments : List (String × String)) (k : String) : Option String :=
  match arguments with
  | [] => none
  | (k', v) :: rest => if k' = k then some v else getArg rest k

/-- An exception raised by `handle_call_tool`: a `KeyError` from
`arguments[...]` on a missing required argument, or the explicit
`ValueError` on an unknown tool name. -/
inductive CallError where
  | keyError (key : String)
  | valueError (msg : String)
deriving DecidableEq, Repr

/-- `handle_call_tool(name, arguments)` acting on the collection `notes`
returned by `load_notes()`: yields the returned `TextContent` list
together with the collection passed to `save_notes`, if the branch calls
it (`none` means no save). -/
def handle_call_tool (name : String) (arguments : List (String × String))
    (notes : Notes) : Except CallError (List TextContent × Option Notes) :=
  if name = "create_note" then
    match getArg arguments "title" with
    | none => .error (.keyError "title")
    | some title =>
      match getArg arguments "content" with
      | none => .error (.keyError "content")
      | some content =>
        if (lookup? notes title).isSome then
          .ok ([⟨"text", "Error: A note with title '" ++ title ++
            "' already exists. Use update_note to modify it."⟩], none)
        else
          .ok ([⟨"text", "Successfully created note '" ++ title ++ "'"⟩],
            some (setKey notes title content))
  else if name = "read_note" then
    match getArg arguments "title" with
    | none => .error (.keyError "title")
    | some title =>
      match lookup? notes title with
      | none => .ok ([⟨"text", "Error: No note found with title '" ++ title ++ "'"⟩], none)
      | some content =>
        .ok ([⟨"text", "Note '" ++ title ++ "':\n\n" ++ content⟩], none)
  else if name = "list_notes" then
    if notes = [] then
      .ok ([⟨"text", "No notes found. Create your first note!"⟩], none)
    else
      .ok ([⟨"text", "Available notes (" ++ toString notes.length ++ "):\n" ++
        String.intercalate "\n" (notes.map (fun p => "- " ++ p.1))⟩], none)
  else if name = "update_note" then
    match getArg arguments "title" with
    | none => .error (.keyError "title")
    | some title =>
      match getArg arguments "content" with
      | none => .error (.keyError "content")
      | some content =>
        if (lookup? notes title).isSome then
          .ok ([⟨"text", "Successfully updated note '" ++ title ++ "'"⟩],
            some (setKey notes title content))
        else
          .ok ([⟨"text", "Error: No note found with title '" ++ title ++
            "'. Use create_note to make a new one."⟩], none)
  else if name = "delete_note" then
    match getArg arguments "title" with
    | none => .error (.keyError "title")
    | some title =>
      if (lookup? notes title).isSome then
        .ok ([⟨"text", "Successfully deleted note '" ++ title ++ "'"⟩],
          some (delKey notes title))
      else
        .ok ([⟨"text", "Error: No note found with title '" ++ title ++ "'"⟩], none)
  else
    .error (.valueError ("Unknown tool: " ++ name))

/-! ## The JSON storage codec

`save_notes` writes `json.dump(notes, f, indent=2)` and `load_notes` reads
`json.load(f)`.  We model the file contents as a list of characters and
give a concrete codec: the writer follows CPython's `json` encoder with
its defaults (`ensure_ascii=True`, `indent=2`), the reader is a
recursive-descent parser for one JSON object of string values. -/

/-- Lower-case hexadecimal digit for `n < 16` (as CPython's `%04x`). -/
def hexDigit (n : Nat) : Char :=
  if n < 10 then Char.ofNat (48 + n) else Char.ofNat (87 + n)

/-- Four lower-case hex digits for `n < 0x10000`. -/
def hex4 (n : Nat) : List Char :=
  [hexDigit (n / 4096 % 16), hexDigit (n / 256 % 16), hexDigit (n / 16 % 16), hexDigit (n % 16)]

/-- JSON-escape one character as CPython's encoder with `ensure_ascii=True`
does: short escapes for `"`, `\`, and the five named controls; printable
ASCII literally; everything else as `\uXXXX`, astral characters as a
surrogate pair. -/
def encChar (c : Char) : List Char :=
  if c = '"' then ['\\', '"']
  else if c = '\\' then ['\\', '\\']
  else if c = '\n' then ['\\', 'n']
  else if c = '\r' then ['\\', 'r']
  else if c = '\t' then ['\\', 't']
  else if c = Char.ofNat 8 then ['\\', 'b']
  else if c = Char.ofNat 12 then ['\\', 'f']
  else if 0x20 ≤ c.toNat ∧ c.toNat ≤ 0x7e then [c]
  else if c.toNat < 0x10000 then '\\' :: 'u' :: hex4 c.toNat
  else
    ('\\' :: 'u' :: hex4 (0xd800 + (c.toNat - 0x10000) / 0x400)) ++
    ('\\' :: 'u' :: hex4 (0xdc00 + (c.toNat - 0x10000) % 0x400))

/-- JSON-escape a character list. -/
def encChars (l : List Char) : List Char :=
  match l with
  | [] => []
  | c :: rest => encChar c ++ encChars rest

/-- A JSON string literal: quotes around the escaped contents. -/
def encString (s : String) : List Char :=
  '"' :: encChars s.data ++ ['"']

/-- Value of one hex digit character. -/
def hexVal (c : Char) : Option Nat :=
  if 48 ≤ c.toNat ∧ c.toNat ≤ 57 then some (c.toNat - 48)
  else if 97 ≤ c.toNat ∧ c.toNat ≤ 102 then some (c.toNat - 87)
  else if 65 ≤ c.toNat ∧ c.toNat ≤ 70 then some (c.toNat - 55)
  else none

/-- Value of a four-hex-digit run. -/
def hexVal4 (a b c d : Char) : Option Nat :=
  match hexVal a, hexVal b, hexVal c, hexVal d with
  | some a, some b, some c, some d => some (((a * 16 + b) * 16 + c) * 16 + d)
  | _, _, _, _ => none

/-- The short escapes `\" \\ \/ \b \f \n \r \t`. -/
def unescape (c : Char) : Option Char :=
  if c = '"' then some '"'
  else if c = '\\' then some '\\'
  else if c = '/' then some '/'
  else if c = 'b' then some (Char.ofNat 8)
  else if c = 'f' then some (Char.ofNat 12)
  else if c = 'n' then some '\n'
  else if c = 'r' then some '\r'
  else if c = 't' then some '\t'
  else none

/-- Scan the body of a JSON string literal (after the opening quote) into
UTF-16 code units: each `\uXXXX` yields its value, each short escape and
each literal character yields its code point; raw control characters are
rejected (CPython's strict `scanstring`).  Returns the units and the input
after the closing quote. -/
def decUnits (l : List Char) : Option (List Nat × List Char) :=
  match l with
  | [] => none
  | c :: rest =>
    if c = '"' then some ([], rest)
    else if c = '\\' then
      match rest with
      | [] => none
      | e :: rest2 =>
        if e = 'u' then
          match rest2 with
          | a :: b :: c1 :: d :: rest3 =>
            match hexVal4 a b c1 d with
            | some v => (decUnits rest3).map (fun p => (v :: p.1, p.2))
            | none => none
          | _ => none
        else
          match unescape e with
          | some ch => (decUnits rest2).map (fun p => (ch.toNat :: p.1, p.2))
          | none => none
    else if 0x20 ≤ c.toNat then (decUnits rest).map (fun p => (c.toNat :: p.1, p.2))
    else none

/-- Rebuild characters from UTF-16 code units: a high surrogate must be
followed by a low surrogate and the pair is combined; lone surrogates are
rejected (they have no scalar-value representation). -/
def combineSurrogates (us : List Nat) : Option (List Char) :=
  match us with
  | [] => some []
  | v :: rest =>
    if 0xd800 ≤ v ∧ v < 0xdc00 then
      match rest with
      | [] => none
      | v2 :: rest2 =>
        if 0xdc00 ≤ v2 ∧ v2 < 0xe000 then
          (combineSurrogates rest2).map
            (fun s => Char.ofNat (0x10000 + (v - 0xd800) * 0x400 + (v2 - 0xdc00)) :: s)
        else none
    else if 0xdc00 ≤ v ∧ v < 0xe000 then none
    else (combineSurrogates rest).map (fun s => Char.ofNat v :: s)

/-- Decode the body of a JSON string literal (after the opening quote):
the decoded characters and the input after the closing quote. -/
def decString (l : List Char) : Option (List Char × List Char) :=
  match decUnits l with
  | some (us, rest) => (combineSurrogates us).map (fun s => (s, rest))
  | none => none

/-- The UTF-16 code units the writer emits for one character: the code
point itself for the basic plane, a surrogate pair beyond it. -/
def encUnits (c : Char) : List Nat :=
  if c.toNat < 0x10000 then [c.toNat]
  else [0xd800 + (c.toNat - 0x10000) / 0x400, 0xdc00 + (c.toNat - 0x10000) % 0x400]

/-- The code units of a character list. -/
def unitsOf (l : List Char) : List Nat :=
  match l with
  | [] => []
  | c :: cs => encUnits c ++ unitsOf cs

/-- JSON insignificant whitespace. -/
def skipWs (l : List Char) : List Char :=
  l.dropWhile (fun c => c = ' ' || c = '\n' || c = '\t' || c = '\r')

/-- Parse one JSON string literal, whitespace allowed before it. -/
def parseString (l : List Char) : Option (String × List Char) :=
  if (skipWs l).head? = some '"' then
    (decString (skipWs l).tail).map (fun p => (⟨p.1⟩, p.2))
  else none

/-- Parse the members of a non-empty JSON object, up to and including the
closing brace.  `fuel` bounds the number of members. -/
def parseMembers (fuel : Nat) (l : List Char) : Option (Notes × List Char) :=
  match fuel with
  | 0 => none
  | fuel + 1 =>
    (parseString l).bind (fun kl =>
      if (skipWs kl.2).head? = some ':' then
        (parseString (skipWs kl.2).tail).bind (fun vl =>
          if (skipWs vl.2).head? = some ',' then
            (parseMembers fuel (skipWs vl.2).tail).map (fun p => ((kl.1, vl.1) :: p.1, p.2))
          else if (skipWs vl.2).head? = some '\x7d' then some ([(kl.1, vl.1)], (skipWs vl.2).tail)
          else none)
      else none)

/-- Parse a whole file: one JSON object whose values are strings, possibly
surrounded by whitespace (the model of `json.load`). -/
def parseNotes (l : List Char) : Option Notes :=
  if (skipWs l).head? = some '\x7b' then
    if (skipWs (skipWs l).tail).head? = some '\x7d' then
      if skipWs (skipWs (skipWs l).tail).tail = [] then some [] else none
    else
      (parseMembers (l.length + 1) (skipWs l).tail).bind
        (fun p => if skipWs p.2 = [] then some p.1 else none)
  else none

/-- One `  "key": "value"` line of the indent-2 object serialization. -/
def dumpLine (p : String × String) : List Char :=
  ' ' :: ' ' :: encString p.1 ++ ':' :: ' ' :: encString p.2

/-- The member lines, joined by `,\n`. -/
def dumpEntries (m : Notes) : List Char :=
  match m with
  | [] => []
  | [p] => dumpLine p
  | p :: rest => dumpLine p ++ ',' :: '\n' :: dumpEntries rest

/-- `json.dumps(m, indent=2)`: `{}` for the empty mapping, otherwise the
member lines between braces. -/
def dumpNotes (m : Notes) : List Char :=
  match m with
  | [] => ['\x7b', '\x7d']
  | _ => '\x7b' :: '\n' :: dumpEntries m ++ ['\n', '\x7d']

/-- The state of the notes file: `none` when `~/claude_notes.json` does not
exist, otherwise its character contents. -/
abbrev FileState := Option (List Char)

/-- `load_notes()`: the empty collection when the file does not exist,
otherwise `json.load` on the contents (`none` models a raised
`JSONDecodeError`). -/
def load_notes (fs : FileState) : Option Notes :=
  match fs with
  | none => some []
  | some text => parseNotes text

/-- `save_notes(notes)`: overwrite the file with the serialized
collection. -/
def save_notes (notes : Notes) (_fs : FileState) : FileState :=
  some (dumpNotes notes)

/-- A raised error of a full invocation: a dispatch error or a JSON decode
failure while loading. -/
inductive InvokeError where
  | call (e : CallError)
  | jsonDecodeError
deriving DecidableEq, Repr

/-- One complete invocation against the notes file: `load_notes()`, then
`handle_call_tool`, then `save_notes` when the branch saves. -/
def invoke (name : String) (arguments : List (String × String)) (fs : FileState) :
    Except InvokeError (List TextContent × FileState) :=
  match load_notes fs with
  | none => .error .jsonDecodeError
  | some notes =>
    match handle_call_tool name arguments notes with
    | .error e => .error (.call e)
    | .ok (tcs, none) => .ok (tcs, fs)
    | .ok (tcs, some notes') => .ok (tcs, save_notes notes' fs)

/-- Collections reachable from the empty collection through the five
operations: the empty collection (what `load_notes` yields before any
save), and every collection passed to `save_notes` by a successful
invocation on a reachable collection. -/
inductive Reachable : Notes → Prop where
  | init : Reachable []
  | step (name : String) (args : List (String × String)) (S S' : Notes)
      (tcs : List TextContent) : Reachable S →
      handle_call_tool name args S = .ok (tcs, some S') → Reachable S'

/-! ## Association-list lemmas (the Python dict operations) -/

theorem lookup_setKey_self (notes : Notes) (k v : String) :
    lookup? (setKey notes k v) k = some v := by
  induction notes with
  | nil => simp [setKey, lookup?]
  | cons p rest ih =>
    by_cases h : p.1 = k <;> simp [setKey, lookup?, h, ih]

theorem lookup_setKey_ne (notes : Notes) (k v t : String) (h : t ≠ k) :
    lookup? (setKey notes k v) t = lookup? notes t := by
  have h' : k ≠ t := Ne.symm h
  induction notes with
  | nil => simp [setKey, lookup?, h']
  | cons p rest ih =>
    by_cases hk : p.1 = k
    · have ht : p.1 ≠ t := fun he => h (he.symm.trans hk)
      simp [setKey, lookup?, hk, ht, h']
    · by_cases ht : p.1 = t <;> simp [setKey, lookup?, hk, ht, ih, h, h']

theorem lookup_eq_none_iff (notes : Notes) (k : String) :
    lookup? notes k = none ↔ k ∉ notes.map Prod.fst := by
  induction notes with
  | nil => simp [lookup?]
  | cons p rest ih =>
    simp only [lookup?, List.map_cons, List.mem_cons]
    by_cases h : p.1 = k
    · simp [h]
    · simp only [if_neg h, ih]
      constructor
      · rintro hnot (he | hm)
        · exact h he.symm
        · exact hnot hm
      · exact fun hnot hm => hnot (Or.inr hm)

theorem setKey_absent (notes : Notes) (k v : String) (h : lookup? notes k = none) :
    setKey notes k v = notes ++ [(k, v)] := by
  induction notes with
  | nil => simp [setKey]
  | cons p rest ih =>
    by_cases hk : p.1 = k
    · simp [lookup?, hk] at h
    · simp [lookup?, hk] at h
      simp [setKey, hk, ih h]

theorem keys_setKey_present (notes : Notes) (k v : String)
    (h : (lookup? notes k).isSome) :
    (setKey notes k v).map Prod.fst = notes.map Prod.fst := by
  induction notes with
  | nil => simp [lookup?] at h
  | cons p rest ih =>
    by_cases hk : p.1 = k
    · simp [setKey, hk]
    · simp [lookup?, hk] at h
      simp [setKey, hk, ih h]

theorem lookup_delKey_ne (notes : Notes) (k t : String) (h : t ≠ k) :
    lookup? (delKey notes k) t = lookup? notes t := by
  have h' : k ≠ t := Ne.symm h
  induction notes with
  | nil => simp [delKey]
  | cons p rest ih =>
    by_cases hk : p.1 = k
    · have ht : p.1 ≠ t := fun he => h (he.symm.trans hk)
      simp [delKey, lookup?, hk, ht, h']
    · by_cases ht : p.1 = t <;> simp [delKey, lookup?, hk, ht, ih, h, h']

theorem keys_delKey_sublist (notes : Notes) (k : String) :
    ((delKey notes k).map Prod.fst).Sublist (notes.map Prod.fst) := by
  induction notes with
  | nil => simp [delKey]
  | cons p rest ih =>
    by_cases hk : p.1 = k
    · simp only [delKey, if_pos hk]
      exact List.sublist_cons_self p.1 (rest.map Prod.fst)
    · simpa [delKey, hk] using ih.cons₂ p.1

theorem lookup_delKey_self (notes : Notes) (k : String)
    (h : (notes.map Prod.fst).Nodup) :
    lookup? (delKey notes k) k = none := by
  induction notes with
  | nil => simp [delKey, lookup?]
  | cons p rest ih =>
    simp only [List.map_cons, List.nodup_cons] at h
    by_cases hk : p.1 = k
    · subst hk
      simp only [delKey, if_pos rfl]
      exact (lookup_eq_none_iff rest p.1).2 h.1
    · simp [delKey, lookup?, hk, ih h.2]

/-! ## Codec lemmas: the reader inverts the writer -/

theorem hexVal_hexDigit (n : Nat) (h : n < 16) : hexVal (hexDigit n) = some n := by
  interval_cases n <;> decide

theorem hexVal4_hex4 (n : Nat) (h : n < 0x10000) :
    hexVal4 (hexDigit (n / 4096 % 16)) (hexDigit (n / 256 % 16))
      (hexDigit (n / 16 % 16)) (hexDigit (n % 16)) = some n := by
  rw [hexVal4, hexVal_hexDigit _ (by omega), hexVal_hexDigit _ (by omega),
    hexVal_hexDigit _ (by omega), hexVal_hexDigit _ (by omega)]
  have : (n / 4096 % 16 * 16 + n / 256 % 16) * 16 * 16 + (n / 16 % 16 * 16 + n % 16) = n := by
    omega
  simp only []
  congr 1
  omega

theorem decUnits_short (e ch : Char) (rest : List Char) (he : e ≠ 'u')
    (hu : unescape e = some ch) :
    decUnits ('\\' :: e :: rest) = (decUnits rest).map (fun p => (ch.toNat :: p.1, p.2)) := by
  rw [decUnits.eq_def]
  simp [he, hu]

theorem decUnits_u (a b c1 d : Char) (v : Nat) (rest : List Char)
    (hv : hexVal4 a b c1 d = some v) :
    decUnits ('\\' :: 'u' :: a :: b :: c1 :: d :: rest) =
      (decUnits rest).map (fun p => (v :: p.1, p.2)) := by
  rw [decUnits.eq_def]
  simp [hv]

theorem decUnits_lit (c : Char) (rest : List Char) (h1 : c ≠ '"') (h2 : c ≠ '\\')
    (h3 : 0x20 ≤ c.toNat) :
    decUnits (c :: rest) = (decUnits rest).map (fun p => (c.toNat :: p.1, p.2)) := by
  rw [decUnits.eq_def]
  simp [h1, h2, h3]

theorem decUnits_quote (rest : List Char) : decUnits ('"' :: rest) = some ([], rest) := by
  rw [decUnits.eq_def]
  simp

theorem combineSurrogates_bmp (v : Nat) (us : List Nat)
    (h1 : ¬(0xd800 ≤ v ∧ v < 0xdc00)) (h2 : ¬(0xdc00 ≤ v ∧ v < 0xe000)) :
    combineSurrogates (v :: us) = (combineSurrogates us).map (fun s => Char.ofNat v :: s) := by
  rw [combineSurrogates.eq_def]
  simp [h1, h2]

theorem combineSurrogates_pair (v v2 : Nat) (us : List Nat)
    (h1 : 0xd800 ≤ v ∧ v < 0xdc00) (h2 : 0xdc00 ≤ v2 ∧ v2 < 0xe000) :
    combineSurrogates (v :: v2 :: us) =
      (combineSurrogates us).map
        (fun s => Char.ofNat (0x10000 + (v - 0xd800) * 0x400 + (v2 - 0xdc00)) :: s) := by
  rw [combineSurrogates.eq_def]
  simp [h1, h2]

theorem decUnits_encChar (c : Char) (rest : List Char) :
    decUnits (encChar c ++ rest) = (decUnits rest).map (fun p => (encUnits c ++ p.1, p.2)) := by
  have hval : c.toNat < 0xd800 ∨ (0xe000 ≤ c.toNat ∧ c.toNat < 0x110000) := c.valid
  by_cases h1 : c = '"'
  · subst h1
    rw [show encChar '"' ++ rest = '\\' :: '"' :: rest from rfl,
      decUnits_short '"' '"' rest (by decide) (by decide)]
    cases decUnits rest <;> simp [encUnits]
  by_cases h2 : c = '\\'
  · subst h2
    rw [show encChar '\\' ++ rest = '\\' :: '\\' :: rest from rfl,
      decUnits_short '\\' '\\' rest (by decide) (by decide)]
    cases decUnits rest <;> simp [encUnits]
  by_cases h3 : c = '\n'
  · subst h3
    rw [show encChar '\n' ++ rest = '\\' :: 'n' :: rest from rfl,
      decUnits_short 'n' '\n' rest (by decide) (by decide)]
    cases decUnits rest <;> simp [encUnits]
  by_cases h4 : c = '\r'
  · subst h4
    rw [show encChar '\r' ++ rest = '\\' :: 'r' :: rest from rfl,
      decUnits_short 'r' '\r' rest (by decide) (by decide)]
    cases decUnits rest <;> simp [encUnits]
  by_cases h5 : c = '\t'
  · subst h5
    rw [show encChar '\t' ++ rest = '\\' :: 't' :: rest from rfl,
      decUnits_short 't' '\t' rest (by decide) (by decide)]
    cases decUnits rest <;> simp [encUnits]
  by_cases h6 : c = Char.ofNat 8
  · subst h6
    rw [show encChar (Char.ofNat 8) ++ rest = '\\' :: 'b' :: rest from rfl,
      decUnits_short 'b' (Char.ofNat 8) rest (by decide) (by decide)]
    cases decUnits rest <;> simp [encUnits]
  by_cases h7 : c = Char.ofNat 12
  · subst h7
    rw [show encChar (Char.ofNat 12) ++ rest = '\\' :: 'f' :: rest from rfl,
      decUnits_short 'f' (Char.ofNat 12) rest (by decide) (by decide)]
    cases decUnits rest <;> simp [encUnits]
  by_cases h8 : 0x20 ≤ c.toNat ∧ c.toNat ≤ 0x7e
  · have h9 : c.toNat < 0x10000 := by omega
    have henc : encChar c ++ rest = c :: rest := by
      simp [encChar, h1, h2, h3, h4, h5, h6, h7, h8]
    rw [henc, decUnits_lit c rest h1 h2 h8.1]
    cases decUnits rest <;> simp [encUnits, h9]
  by_cases h9 : c.toNat < 0x10000
  · -- the single `\uXXXX` case
    have henc : encChar c ++ rest =
        '\\' :: 'u' :: hexDigit (c.toNat / 4096 % 16) :: hexDigit (c.toNat / 256 % 16) ::
          hexDigit (c.toNat / 16 % 16) :: hexDigit (c.toNat % 16) :: rest := by
      simp [encChar, h1, h2, h3, h4, h5, h6, h7, h8, h9, hex4]
    rw [henc, decUnits_u _ _ _ _ c.toNat rest (hexVal4_hex4 c.toNat h9)]
    cases decUnits rest <;> simp [encUnits, h9]
  · -- the surrogate-pair case
    have hle : c.toNat < 0x110000 := by rcases hval with h | h <;> omega
    have hhi : 0xd800 + (c.toNat - 0x10000) / 0x400 < 0x10000 := by omega
    have hlo : 0xdc00 + (c.toNat - 0x10000) % 0x400 < 0x10000 := by omega
    have henc : encChar c ++ rest =
        '\\' :: 'u' :: hexDigit ((0xd800 + (c.toNat - 0x10000) / 0x400) / 4096 % 16) ::
          hexDigit ((0xd800 + (c.toNat - 0x10000) / 0x400) / 256 % 16) ::
          hexDigit ((0xd800 + (c.toNat - 0x10000) / 0x400) / 16 % 16) ::
          hexDigit ((0xd800 + (c.toNat - 0x10000) / 0x400) % 16) ::
          '\\' :: 'u' :: hexDigit ((0xdc00 + (c.toNat - 0x10000) % 0x400) / 4096 % 16) ::
          hexDigit ((0xdc00 + (c.toNat - 0x10000) % 0x400) / 256 % 16) ::
          hexDigit ((0xdc00 + (c.toNat - 0x10000) % 0x400) / 16 % 16) ::
          hexDigit ((0xdc00 + (c.toNat - 0x10000) % 0x400) % 16) :: rest := by
      simp [encChar, h1, h2, h3, h4, h5, h6, h7, h8, h9, hex4]
    rw [henc, decUnits_u _ _ _ _ _ _ (hexVal4_hex4 _ hhi),
      decUnits_u _ _ _ _ _ _ (hexVal4_hex4 _ hlo)]
    cases decUnits rest <;> simp [encUnits, h9]

theorem decUnits_encChars (l : List Char) (rest : List Char) :
    decUnits (encChars l ++ '"' :: rest) = some (unitsOf l, rest) := by
  induction l with
  | nil => simp [encChars, decUnits_quote, unitsOf]
  | cons c cs ih =>
    rw [encChars, List.append_assoc, decUnits_encChar, ih]
    simp [unitsOf]

theorem combineSurrogates_encUnits (c : Char) (us : List Nat) :
    combineSurrogates (encUnits c ++ us) = (combineSurrogates us).map (fun s => c :: s) := by
  have hval : c.toNat < 0xd800 ∨ (0xe000 ≤ c.toNat ∧ c.toNat < 0x110000) := c.valid
  by_cases h : c.toNat < 0x10000
  · have hns : ¬(0xd800 ≤ c.toNat ∧ c.toNat < 0xdc00) := by rcases hval with h' | h' <;> omega
    have hns2 : ¬(0xdc00 ≤ c.toNat ∧ c.toNat < 0xe000) := by rcases hval with h' | h' <;> omega
    rw [show encUnits c ++ us = c.toNat :: us by simp [encUnits, h],
      combineSurrogates_bmp c.toNat us hns hns2]
    cases combineSurrogates us <;> simp [Char.ofNat_toNat]
  · have hle : c.toNat < 0x110000 := by rcases hval with h' | h' <;> omega
    have hhir : 0xd800 ≤ 0xd800 + (c.toNat - 0x10000) / 0x400 ∧
        0xd800 + (c.toNat - 0x10000) / 0x400 < 0xdc00 := by omega
    have hlor : 0xdc00 ≤ 0xdc00 + (c.toNat - 0x10000) % 0x400 ∧
        0xdc00 + (c.toNat - 0x10000) % 0x400 < 0xe000 := by omega
    have harith : 0x10000 + (0xd800 + (c.toNat - 0x10000) / 0x400 - 0xd800) * 0x400 +
        (0xdc00 + (c.toNat - 0x10000) % 0x400 - 0xdc00) = c.toNat := by omega
    rw [show encUnits c ++ us = (0xd800 + (c.toNat - 0x10000) / 0x400) ::
        (0xdc00 + (c.toNat - 0x10000) % 0x400) :: us by simp [encUnits, h],
      combineSurrogates_pair _ _ us hhir hlor, harith]
    cases combineSurrogates us <;> simp [Char.ofNat_toNat]

theorem combineSurrogates_unitsOf (l : List Char) :
    combineSurrogates (unitsOf l) = some l := by
  induction l with
  | nil => simp [unitsOf, combineSurrogates]
  | cons c cs ih =>
    rw [unitsOf, combineSurrogates_encUnits, ih]
    rfl

theorem decString_encChars (l : List Char) (rest : List Char) :
    decString (encChars l ++ '"' :: rest) = some (l, rest) := by
  rw [decString, decUnits_encChars]
  simp [combineSurrogates_unitsOf]

theorem skipWs_nil : skipWs [] = [] := rfl

theorem skipWs_space (l : List Char) : skipWs (' ' :: l) = skipWs l := by
  simp [skipWs]

theorem skipWs_newline (l : List Char) : skipWs ('\n' :: l) = skipWs l := by
  simp [skipWs]

theorem skipWs_quote (l : List Char) : skipWs ('"' :: l) = '"' :: l := by
  simp [skipWs]

theorem skipWs_colon (l : List Char) : skipWs (':' :: l) = ':' :: l := by
  simp [skipWs]

theorem skipWs_comma (l : List Char) : skipWs (',' :: l) = ',' :: l := by
  simp [skipWs]

theorem skipWs_rbrace (l : List Char) : skipWs ('\x7d' :: l) = '\x7d' :: l := by
  simp [skipWs]

theorem skipWs_lbrace (l : List Char) : skipWs ('\x7b' :: l) = '\x7b' :: l := by
  simp [skipWs]

theorem parseString_space (l : List Char) : parseString (' ' :: l) = parseString l := by
  simp only [parseString, skipWs_space]

theorem parseString_newline (l : List Char) : parseString ('\n' :: l) = parseString l := by
  simp only [parseString, skipWs_newline]

theorem parseString_encString (s : String) (rest : List Char) :
    parseString (encString s ++ rest) = some (s, rest) := by
  have hshape : encString s ++ rest = '"' :: (encChars s.data ++ '"' :: rest) := by
    simp [encString]
  rw [hshape, parseString, skipWs_quote]
  simp [decString_encChars]

theorem length_le_dumpEntries (m : Notes) : m.length ≤ (dumpEntries m).length := by
  induction m with
  | nil => simp [dumpEntries]
  | cons p ps ih =>
    cases ps with
    | nil => simp [dumpEntries, dumpLine]
    | cons q qs =>
      simp only [dumpEntries, dumpLine, List.length_cons, List.length_append] at *
      omega

theorem parseMembers_dumpEntries (m : Notes) (rest : List Char) (fuel : Nat)
    (hf : m.length ≤ fuel) (hm : m ≠ []) :
    parseMembers fuel ('\n' :: dumpEntries m ++ '\n' :: '\x7d' :: rest) = some (m, rest) := by
  induction m generalizing fuel rest with
  | nil => exact absurd rfl hm
  | cons p ps ih =>
    cases fuel with
    | zero => simp at hf
    | succ f =>
      cases ps with
      | nil =>
        have hshape : '\n' :: dumpEntries [p] ++ '\n' :: '\x7d' :: rest =
            '\n' :: ' ' :: ' ' ::
              (encString p.1 ++ ':' :: ' ' ::
                (encString p.2 ++ '\n' :: '\x7d' :: rest)) := by
          simp [dumpEntries, dumpLine]
        rw [hshape, parseMembers]
        rw [parseString_newline, parseString_space, parseString_space,
          parseString_encString, Option.some_bind]
        simp only [skipWs_colon, List.head?_cons, List.tail_cons, reduceIte]
        rw [parseString_space, parseString_encString, Option.some_bind]
        simp only [skipWs_newline, skipWs_rbrace, List.head?_cons, List.tail_cons]
        simp
      | cons q qs =>
        have hshape : '\n' :: dumpEntries (p :: q :: qs) ++ '\n' :: '\x7d' :: rest =
            '\n' :: ' ' :: ' ' ::
              (encString p.1 ++ ':' :: ' ' ::
                (encString p.2 ++ ',' ::
                  ('\n' :: dumpEntries (q :: qs) ++ '\n' :: '\x7d' :: rest))) := by
          simp [dumpEntries, dumpLine]
        rw [hshape, parseMembers]
        rw [parseString_newline, parseString_space, parseString_space,
          parseString_encString, Option.some_bind]
        simp only [skipWs_colon, List.head?_cons, List.tail_cons, reduceIte]
        rw [parseString_space, parseString_encString, Option.some_bind]
        simp only [skipWs_comma, List.head?_cons, List.tail_cons, reduceIte]
        rw [ih rest f (by simpa using Nat.le_of_succ_le_succ hf) (by simp)]
        simp

theorem skipWs_entry_block (p : String × String) (ps : Notes) (T : List Char) :
    ∃ X, skipWs ('\n' :: dumpEntries (p :: ps) ++ T) = '"' :: X := by
  cases ps with
  | nil =>
    exact ⟨encChars p.1.data ++ '"' :: ':' :: ' ' :: '"' :: (encChars p.2.data ++ '"' :: T),
      by simp [dumpEntries, dumpLine, encString, skipWs_newline, skipWs_space,
        skipWs_quote, List.append_assoc]⟩
  | cons q qs =>
    exact ⟨encChars p.1.data ++
        '"' :: ':' :: ' ' :: '"' :: (encChars p.2.data ++ '"' :: ',' :: '\n' ::
          (dumpEntries (q :: qs) ++ T)),
      by simp [dumpEntries, dumpLine, encString, skipWs_newline, skipWs_space,
        skipWs_quote, List.append_assoc]⟩

theorem parseNotes_dumpNotes (m : Notes) : parseNotes (dumpNotes m) = some m := by
  cases m with
  | nil => rfl
  | cons p ps =>
    have hd : dumpNotes (p :: ps) =
        '\x7b' :: ('\n' :: dumpEntries (p :: ps) ++ '\n' :: '\x7d' :: ([] : List Char)) := by
      simp [dumpNotes]
    have hfuel : (p :: ps).length ≤
        ('\x7b' :: ('\n' :: dumpEntries (p :: ps) ++ '\n' :: '\x7d' :: ([] : List Char))).length
          + 1 := by
      have h1 := length_le_dumpEntries (p :: ps)
      simp only [List.length_cons, List.length_append] at *
      omega
    obtain ⟨X, hX⟩ :=
      skipWs_entry_block p ps ('\n' :: '\x7d' :: ([] : List Char))
    rw [parseNotes, hd, skipWs_lbrace]
    simp only [List.head?_cons, List.tail_cons, reduceIte, hX]
    rw [parseMembers_dumpEntries (p :: ps) [] _ hfuel (by simp), Option.some_bind]
    simp [skipWs_nil]

theorem load_save (m : Notes) (fs : FileState) :
    load_notes (save_notes m fs) = some m := by
  simp [load_notes, save_notes, parseNotes_dumpNotes]

/-! ## Dispatcher lemmas -/

theorem saved_characterization (name : String) (args : List (String × String)) (S : Notes)
    (tcs : List TextContent) (S' : Notes)
    (h : handle_call_tool name args S = .ok (tcs, some S')) :
    (name = "create_note" ∧ ∃ T C, getArg args "title" = some T ∧
       getArg args "content" = some C ∧ lookup? S T = none ∧ S' = setKey S T C) ∨
    (name = "update_note" ∧ ∃ T C, getArg args "title" = some T ∧
       getArg args "content" = some C ∧ (lookup? S T).isSome ∧ S' = setKey S T C) ∨
    (name = "delete_note" ∧ ∃ T, getArg args "title" = some T ∧
       (lookup? S T).isSome ∧ S' = delKey S T) := by
  by_cases h1 : name = "create_note"
  · subst h1
    simp only [handle_call_tool, reduceIte] at h
    cases hT : getArg args "title" with
    | none => simp [hT] at h
    | some T =>
      cases hC : getArg args "content" with
      | none => simp [hT, hC] at h
      | some C =>
        by_cases hL : (lookup? S T).isSome
        · simp [hT, hC, hL] at h
        · simp [hT, hC, hL] at h
          exact Or.inl ⟨rfl, T, C, rfl, rfl, by simpa using hL, h.2.symm⟩
  by_cases h2 : name = "read_note"
  · subst h2
    simp only [handle_call_tool, reduceIte] at h
    cases hT : getArg args "title" with
    | none => simp [hT] at h
    | some T =>
      cases hL : lookup? S T with
      | none => simp [hT, hL] at h
      | some C => simp [hT, hL] at h
  by_cases h3 : name = "list_notes"
  · subst h3
    simp only [handle_call_tool, reduceIte] at h
    by_cases hS : S = [] <;> simp [hS] at h
  by_cases h4 : name = "update_note"
  · subst h4
    simp only [handle_call_tool, reduceIte] at h
    cases hT : getArg args "title" with
    | none => simp [hT] at h
    | some T =>
      cases hC : getArg args "content" with
      | none => simp [hT, hC] at h
      | some C =>
        by_cases hL : (lookup? S T).isSome
        · simp [hT, hC, hL] at h
          exact Or.inr (Or.inl ⟨rfl, T, C, rfl, rfl, hL, h.2.symm⟩)
        · simp [hT, hC, hL] at h
  by_cases h5 : name = "delete_note"
  · subst h5
    simp only [handle_call_tool, reduceIte] at h
    cases hT : getArg args "title" with
    | none => simp [hT] at h
    | some T =>
      by_cases hL : (lookup? S T).isSome
      · simp [hT, hL] at h
        exact Or.inr (Or.inr ⟨rfl, T, rfl, hL, h.2.symm⟩)
      · simp [hT, hL] at h
  · simp [handle_call_tool, h1, h2, h3, h4, h5] at h

theorem reachable_nodup (S : Notes) (h : Reachable S) : (S.map Prod.fst).Nodup := by
  induction h with
  | init => simp
  | step name args S S' tcs hS heq ih =>
    rcases saved_characterization name args S tcs S' heq with
      ⟨_, T, C, _, _, hnone, rfl⟩ | ⟨_, T, C, _, _, hsome, rfl⟩ | ⟨_, T, _, hsome, rfl⟩
    · rw [setKey_absent S T C hnone]
      rw [List.map_append, List.nodup_append]
      refine ⟨ih, by simp, ?_⟩
      intro a ha hb
      simp at hb
      rw [hb] at ha
      exact absurd ha ((lookup_eq_none_iff S T).1 hnone)
    · rw [keys_setKey_present S T C hsome]
      exact ih
    · exact (keys_delKey_sublist S T).nodup ih

theorem handle_create_absent (S : Notes) (T C : String) (args : List (String × String))
    (hT : getArg args "title" = some T) (hC : getArg args "content" = some C)
    (habs : lookup? S T = none) :
    handle_call_tool "create_note" args S =
      .ok ([⟨"text", "Successfully created note '" ++ T ++ "'"⟩], some (setKey S T C)) := by
  simp [handle_call_tool, hT, hC, habs]

theorem handle_create_present (S : Notes) (T C C0 : String) (args : List (String × String))
    (hT : getArg args "title" = some T) (hC : getArg args "content" = some C)
    (hpres : lookup? S T = some C0) :
    handle_call_tool "create_note" args S =
      .ok ([⟨"text", "Error: A note with title '" ++ T ++
        "' already exists. Use update_note to modify it."⟩], none) := by
  simp [handle_call_tool, hT, hC, hpres]

theorem handle_read_present (S : Notes) (T C0 : String) (args : List (String × String))
    (hT : getArg args "title" = some T) (hpres : lookup? S T = some C0) :
    handle_call_tool "read_note" args S =
      .ok ([⟨"text", "Note '" ++ T ++ "':\n\n" ++ C0⟩], none) := by
  simp [handle_call_tool, hT, hpres]

theorem handle_read_absent (S : Notes) (T : String) (args : List (String × String))
    (hT : getArg args "title" = some T) (habs : lookup? S T = none) :
    handle_call_tool "read_note" args S =
      .ok ([⟨"text", "Error: No note found with title '" ++ T ++ "'"⟩], none) := by
  simp [handle_call_tool, hT, habs]

theorem handle_list (S : Notes) (args : List (String × String)) :
    handle_call_tool "list_notes" args S =
      .ok ([⟨"text",
        if S = [] then "No notes found. Create your first note!"
        else "Available notes (" ++ toString S.length ++ "):\n" ++
          String.intercalate "\n" (S.map (fun p => "- " ++ p.1))⟩], none) := by
  by_cases hS : S = [] <;> simp [handle_call_tool, hS]

theorem handle_update_present (S : Notes) (T C C0 : String) (args : List (String × String))
    (hT : getArg args "title" = some T) (hC : getArg args "content" = some C)
    (hpres : lookup? S T = some C0) :
    handle_call_tool "update_note" args S =
      .ok ([⟨"text", "Successfully updated note '" ++ T ++ "'"⟩], some (setKey S T C)) := by
  simp [handle_call_tool, hT, hC, hpres]

theorem handle_update_absent (S : Notes) (T C : String) (args : List (String × String))
    (hT : getArg args "title" = some T) (hC : getArg args "content" = some C)
    (habs : lookup? S T = none) :
    handle_call_tool "update_note" args S =
      .ok ([⟨"text", "Error: No note found with title '" ++ T ++
        "'. Use create_note to make a new one."⟩], none) := by
  simp [handle_call_tool, hT, hC, habs]

theorem handle_delete_present (S : Notes) (T C0 : String) (args : List (String × String))
    (hT : getArg args "title" = some T) (hpres : lookup? S T = some C0) :
    handle_call_tool "delete_note" args S =
      .ok ([⟨"text", "Successfully deleted note '" ++ T ++ "'"⟩], some (delKey S T)) := by
  simp [handle_call_tool, hT, hpres]

theorem handle_delete_absent (S : Notes) (T : String) (args : List (String × String))
    (hT : getArg args "title" = some T) (habs : lookup? S T = none) :
    handle_call_tool "delete_note" args S =
      .ok ([⟨"text", "Error: No note found with title '" ++ T ++ "'"⟩], none) := by
  simp [handle_call_tool, hT, habs]

theorem invoke_eq (name : String) (args : List (String × String)) (fs : FileState) (S : Notes)
    (hload : load_notes fs = some S) :
    invoke name args fs =
      match handle_call_tool name args S with
      | .error e => .error (.call e)
      | .ok (tcs, none) => .ok (tcs, fs)
      | .ok (tcs, some notes') => .ok (tcs, save_notes notes' fs) := by
  rw [invoke, hload]

theorem load_dump (m : Notes) : load_notes (some (dumpNotes m)) = some m := by
  simp [load_notes, parseNotes_dumpNotes]

theorem mem_keys_iff_lookup_isSome (notes : Notes) (k : String) :
    k ∈ notes.map Prod.fst ↔ (lookup? notes k).isSome := by
  rcases h : lookup? notes k with _ | v
  · simp [(lookup_eq_none_iff notes k).1 h]
  · simp only [Option.isSome_some, iff_true]
    by_contra hmem
    rw [(lookup_eq_none_iff notes k).2 hmem] at h
    exact Option.noConfusion h

/-! ## The claims -/

/-- C1: for every title `T` and content `C`, `create_note(T, C)` on a
collection not containing `T`, followed by `read_note(T)`, returns a
result whose content part is exactly `C`. -/
theorem create_then_read_returns_content (T C : String) (S : Notes) (fs : FileState)
    (hload : load_notes fs = some S) (habs : lookup? S T = none) :
    invoke "create_note" [("title", T), ("content", C)] fs =
      .ok ([⟨"text", "Successfully created note '" ++ T ++ "'"⟩],
        some (dumpNotes (setKey S T C))) ∧
    invoke "read_note" [("title", T)] (some (dumpNotes (setKey S T C))) =
      .ok ([⟨"text", "Note '" ++ T ++ "':\n\n" ++ C⟩],
        some (dumpNotes (setKey S T C))) := by
  constructor
  · rw [invoke_eq _ _ fs S hload,
      handle_create_absent S T C _ (by simp [getArg]) (by simp [getArg]) habs]
    rfl
  · rw [invoke_eq _ _ _ (setKey S T C) (load_dump _),
      handle_read_present (setKey S T C) T C _ (by simp [getArg]) (lookup_setKey_self S T C)]

/-- C1 witness: a concrete create-then-read run from an empty store. -/
theorem create_then_read_returns_content_witness :
    invoke "read_note" [("title", "Shopping")]
        (some (dumpNotes (setKey [] "Shopping" "milk"))) =
      .ok ([⟨"text", "Note 'Shopping':\n\nmilk"⟩],
        some (dumpNotes (setKey [] "Shopping" "milk"))) :=
  (create_then_read_returns_content "Shopping" "milk" [] none rfl rfl).2

/-- C2: a second `create_note` with the same title leaves the stored
content equal to the first one, reports the duplicate-title failure
directing the caller to `update_note`, and performs no save. -/
theorem create_duplicate_keeps_first (T C1 C2 : String) (S : Notes) (fs : FileState)
    (hload : load_notes fs = some S) (habs : lookup? S T = none) :
    invoke "create_note" [("title", T), ("content", C1)] fs =
      .ok ([⟨"text", "Successfully created note '" ++ T ++ "'"⟩],
        some (dumpNotes (setKey S T C1))) ∧
    handle_call_tool "create_note" [("title", T), ("content", C2)] (setKey S T C1) =
      .ok ([⟨"text", "Error: A note with title '" ++ T ++
        "' already exists. Use update_note to modify it."⟩], none) ∧
    invoke "create_note" [("title", T), ("content", C2)] (some (dumpNotes (setKey S T C1))) =
      .ok ([⟨"text", "Error: A note with title '" ++ T ++
        "' already exists. Use update_note to modify it."⟩],
        some (dumpNotes (setKey S T C1))) ∧
    lookup? (setKey S T C1) T = some C1 := by
  refine ⟨?_, ?_, ?_, lookup_setKey_self S T C1⟩
  · rw [invoke_eq _ _ fs S hload,
      handle_create_absent S T C1 _ (by simp [getArg]) (by simp [getArg]) habs]
    rfl
  · exact handle_create_present (setKey S T C1) T C2 C1 _ (by simp [getArg])
      (by simp [getArg]) (lookup_setKey_self S T C1)
  · rw [invoke_eq _ _ _ (setKey S T C1) (load_dump _),
      handle_create_present (setKey S T C1) T C2 C1 _ (by simp [getArg])
        (by simp [getArg]) (lookup_setKey_self S T C1)]

/-- C2 witness: the duplicate-create run at a concrete input. -/
theorem create_duplicate_keeps_first_witness :
    lookup? (setKey [] "A" "one") "A" = some "one" ∧
    handle_call_tool "create_note" [("title", "A"), ("content", "two")] (setKey [] "A" "one") =
      .ok ([⟨"text",
        "Error: A note with title 'A' already exists. Use update_note to modify it."⟩],
        none) :=
  ⟨(create_duplicate_keeps_first "A" "one" "two" [] none rfl rfl).2.2.2,
   (create_duplicate_keeps_first "A" "one" "two" [] none rfl rfl).2.1⟩

/-- C3: business-rule failures are atomic — update/delete/read on an
absent title and create on a present title return an error text with no
save, the full invocation leaves the file unchanged, every save argument
comes from a success path of create/update/delete, and read/list never
save. -/
theorem failures_are_atomic (S : Notes) (fs : FileState) (hload : load_notes fs = some S) :
    (∀ T C args, getArg args "title" = some T → getArg args "content" = some C →
      lookup? S T = none →
      handle_call_tool "update_note" args S =
        .ok ([⟨"text", "Error: No note found with title '" ++ T ++
          "'. Use create_note to make a new one."⟩], none) ∧
      invoke "update_note" args fs =
        .ok ([⟨"text", "Error: No note found with title '" ++ T ++
          "'. Use create_note to make a new one."⟩], fs)) ∧
    (∀ T args, getArg args "title" = some T → lookup? S T = none →
      handle_call_tool "delete_note" args S =
        .ok ([⟨"text", "Error: No note found with title '" ++ T ++ "'"⟩], none) ∧
      invoke "delete_note" args fs =
        .ok ([⟨"text", "Error: No note found with title '" ++ T ++ "'"⟩], fs)) ∧
    (∀ T args, getArg args "title" = some T → lookup? S T = none →
      handle_call_tool "read_note" args S =
        .ok ([⟨"text", "Error: No note found with title '" ++ T ++ "'"⟩], none) ∧
      invoke "read_note" args fs =
        .ok ([⟨"text", "Error: No note found with title '" ++ T ++ "'"⟩], fs)) ∧
    (∀ T C C0 args, getArg args "title" = some T → getArg args "content" = some C →
      lookup? S T = some C0 →
      handle_call_tool "create_note" args S =
        .ok ([⟨"text", "Error: A note with title '" ++ T ++
          "' already exists. Use update_note to modify it."⟩], none) ∧
      invoke "create_note" args fs =
        .ok ([⟨"text", "Error: A note with title '" ++ T ++
          "' already exists. Use update_note to modify it."⟩], fs)) ∧
    (∀ name args tcs S', handle_call_tool name args S = .ok (tcs, some S') →
      name = "create_note" ∨ name = "update_note" ∨ name = "delete_note") ∧
    (∀ args tcs os, handle_call_tool "read_note" args S = .ok (tcs, os) → os = none) ∧
    (∀ args tcs os, handle_call_tool "list_notes" args S = .ok (tcs, os) → os = none) := by
  refine ⟨?_, ?_, ?_, ?_, ?_, ?_, ?_⟩
  · intro T C args hT hC habs
    rw [handle_update_absent S T C args hT hC habs, invoke_eq _ _ fs S hload,
      handle_update_absent S T C args hT hC habs]
    exact ⟨rfl, rfl⟩
  · intro T args hT habs
    rw [handle_delete_absent S T args hT habs, invoke_eq _ _ fs S hload,
      handle_delete_absent S T args hT habs]
    exact ⟨rfl, rfl⟩
  · intro T args hT habs
    rw [handle_read_absent S T args hT habs, invoke_eq _ _ fs S hload,
      handle_read_absent S T args hT habs]
    exact ⟨rfl, rfl⟩
  · intro T C C0 args hT hC hpres
    rw [handle_create_present S T C C0 args hT hC hpres, invoke_eq _ _ fs S hload,
      handle_create_present S T C C0 args hT hC hpres]
    exact ⟨rfl, rfl⟩
  · intro name args tcs S' h
    rcases saved_characterization name args S tcs S' h with ⟨hn, _⟩ | ⟨hn, _⟩ | ⟨hn, _⟩
    · exact Or.inl hn
    · exact Or.inr (Or.inl hn)
    · exact Or.inr (Or.inr hn)
  · intro args tcs os h
    cases os with
    | none => rfl
    | some S' =>
      rcases saved_characterization _ _ _ _ _ h with ⟨hn, _⟩ | ⟨hn, _⟩ | ⟨hn, _⟩ <;>
        exact absurd hn (by decide)
  · intro args tcs os h
    cases os with
    | none => rfl
    | some S' =>
      rcases saved_characterization _ _ _ _ _ h with ⟨hn, _⟩ | ⟨hn, _⟩ | ⟨hn, _⟩ <;>
        exact absurd hn (by decide)

/-- C3 witness: a concrete failing update leaves a one-note file as is. -/
theorem failures_are_atomic_witness :
    invoke "update_note" [("title", "X"), ("content", "y")]
        (some (dumpNotes [("A", "a")])) =
      .ok ([⟨"text",
        "Error: No note found with title 'X'. Use create_note to make a new one."⟩],
        some (dumpNotes [("A", "a")])) :=
  ((failures_are_atomic [("A", "a")] (some (dumpNotes [("A", "a")])) (load_dump _)).1
    "X" "y" [("title", "X"), ("content", "y")] rfl rfl rfl).2

/-- C4: `update_note` on a present title replaces the stored content
entirely and persists; the shopping scenario reads back `milk, bread`. -/
theorem update_replaces_content (T C2 C0 : String) (S : Notes) (fs : FileState)
    (hload : load_notes fs = some S) (hpres : lookup? S T = some C0) :
    invoke "update_note" [("title", T), ("content", C2)] fs =
      .ok ([⟨"text", "Successfully updated note '" ++ T ++ "'"⟩],
        some (dumpNotes (setKey S T C2))) ∧
    lookup? (setKey S T C2) T = some C2 ∧
    (∀ t, t ≠ T → lookup? (setKey S T C2) t = lookup? S t) ∧
    invoke "create_note" [("title", "Shopping"), ("content", "milk")] none =
      .ok ([⟨"text", "Successfully created note 'Shopping'"⟩],
        some (dumpNotes [("Shopping", "milk")])) ∧
    invoke "update_note" [("title", "Shopping"), ("content", "milk, bread")]
        (some (dumpNotes [("Shopping", "milk")])) =
      .ok ([⟨"text", "Successfully updated note 'Shopping'"⟩],
        some (dumpNotes [("Shopping", "milk, bread")])) ∧
    invoke "read_note" [("title", "Shopping")]
        (some (dumpNotes [("Shopping", "milk, bread")])) =
      .ok ([⟨"text", "Note 'Shopping':\n\nmilk, bread"⟩],
        some (dumpNotes [("Shopping", "milk, bread")])) := by
  refine ⟨?_, lookup_setKey_self S T C2, fun t ht => lookup_setKey_ne S T C2 t ht,
    by rfl, by rfl, by rfl⟩
  rw [invoke_eq _ _ fs S hload,
    handle_update_present S T C2 C0 _ (by simp [getArg]) (by simp [getArg]) hpres]
  rfl

/-- C4 witness: the update run at a concrete one-note store. -/
theorem update_replaces_content_witness :
    invoke "update_note" [("title", "A"), ("content", "new")]
        (some (dumpNotes [("A", "old")])) =
      .ok ([⟨"text", "Successfully updated note 'A'"⟩],
        some (dumpNotes (setKey [("A", "old")] "A" "new"))) :=
  (update_replaces_content "A" "new" "old" [("A", "old")]
    (some (dumpNotes [("A", "old")])) (load_dump _) rfl).1

/-- C5: `delete_note` on a present title removes the entry and persists,
and a subsequent `read_note` fails with the not-found message. -/
theorem delete_then_read_not_found (T C0 : String) (S : Notes) (fs : FileState)
    (hload : load_notes fs = some S) (hnodup : (S.map Prod.fst).Nodup)
    (hpres : lookup? S T = some C0) :
    invoke "delete_note" [("title", T)] fs =
      .ok ([⟨"text", "Successfully deleted note '" ++ T ++ "'"⟩],
        some (dumpNotes (delKey S T))) ∧
    lookup? (delKey S T) T = none ∧
    invoke "read_note" [("title", T)] (some (dumpNotes (delKey S T))) =
      .ok ([⟨"text", "Error: No note found with title '" ++ T ++ "'"⟩],
        some (dumpNotes (delKey S T))) := by
  refine ⟨?_, lookup_delKey_self S T hnodup, ?_⟩
  · rw [invoke_eq _ _ fs S hload,
      handle_delete_present S T C0 _ (by simp [getArg]) hpres]
    rfl
  · rw [invoke_eq _ _ _ (delKey S T) (load_dump _),
      handle_read_absent (delKey S T) T _ (by simp [getArg])
        (lookup_delKey_self S T hnodup)]

/-- C5 witness: delete-then-read on a concrete one-note store. -/
theorem delete_then_read_not_found_witness :
    invoke "read_note" [("title", "A")] (some (dumpNotes (delKey [("A", "a")] "A"))) =
      .ok ([⟨"text", "Error: No note found with title 'A'"⟩],
        some (dumpNotes (delKey [("A", "a")] "A"))) :=
  (delete_then_read_not_found "A" "a" [("A", "a")] (some (dumpNotes [("A", "a")]))
    (load_dump _) (by simp) rfl).2.2

/-- C6: `list_notes` never saves; on an empty collection it returns the
empty-state message, otherwise a count plus one `- title` line per note in
collection iteration order; creating `A` then `B` yields count 2 with both
titles. -/
theorem list_notes_reports (S : Notes) (fs : FileState) (hload : load_notes fs = some S) :
    (∀ args, handle_call_tool "list_notes" args S =
      .ok ([⟨"text",
        if S = [] then "No notes found. Create your first note!"
        else "Available notes (" ++ toString S.length ++ "):\n" ++
          String.intercalate "\n" (S.map (fun p => "- " ++ p.1))⟩], none)) ∧
    (∀ args, invoke "list_notes" args fs =
      .ok ([⟨"text",
        if S = [] then "No notes found. Create your first note!"
        else "Available notes (" ++ toString S.length ++ "):\n" ++
          String.intercalate "\n" (S.map (fun p => "- " ++ p.1))⟩], fs)) ∧
    invoke "list_notes" [] none =
      .ok ([⟨"text", "No notes found. Create your first note!"⟩], none) ∧
    invoke "create_note" [("title", "A"), ("content", "a")] none =
      .ok ([⟨"text", "Successfully created note 'A'"⟩],
        some (dumpNotes [("A", "a")])) ∧
    invoke "create_note" [("title", "B"), ("content", "b")] (some (dumpNotes [("A", "a")])) =
      .ok ([⟨"text", "Successfully created note 'B'"⟩],
        some (dumpNotes [("A", "a"), ("B", "b")])) ∧
    invoke "list_notes" [] (some (dumpNotes [("A", "a"), ("B", "b")])) =
      .ok ([⟨"text", "Available notes (2):\n- A\n- B"⟩],
        some (dumpNotes [("A", "a"), ("B", "b")])) := by
  refine ⟨fun args => handle_list S args, ?_, by rfl, by rfl, by rfl, by rfl⟩
  intro args
  rw [invoke_eq _ _ fs S hload, handle_list S args]

/-- C6 witness: listing a concrete one-note store neither mutates nor
saves and reports the single title. -/
theorem list_notes_reports_witness :
    invoke "list_notes" [] (some (dumpNotes [("A", "a")])) =
      .ok ([⟨"text",
        if ([("A", "a")] : Notes) = [] then "No notes found. Create your first note!"
        else "Available notes (" ++ toString ([("A", "a")] : Notes).length ++ "):\n" ++
          String.intercalate "\n" (([("A", "a")] : Notes).map (fun p => "- " ++ p.1))⟩],
        some (dumpNotes [("A", "a")])) :=
  (list_notes_reports [("A", "a")] (some (dumpNotes [("A", "a")])) (load_dump _)).2.1 []

/-- C7: an unknown operation name raises a `ValueError` and a missing
required argument raises a `KeyError` — distinct failures, not crafted
text results. -/
theorem structural_errors_raise :
    (∀ name args S, name ∉ (["create_note", "read_note", "list_notes",
        "update_note", "delete_note"] : List String) →
      handle_call_tool name args S = .error (.valueError ("Unknown tool: " ++ name))) ∧
    (∀ args S, getArg args "title" = none →
      handle_call_tool "create_note" args S = .error (.keyError "title") ∧
      handle_call_tool "read_note" args S = .error (.keyError "title") ∧
      handle_call_tool "update_note" args S = .error (.keyError "title") ∧
      handle_call_tool "delete_note" args S = .error (.keyError "title")) ∧
    (∀ args S T, getArg args "title" = some T → getArg args "content" = none →
      handle_call_tool "create_note" args S = .error (.keyError "content") ∧
      handle_call_tool "update_note" args S = .error (.keyError "content")) := by
  refine ⟨?_, ?_, ?_⟩
  · intro name args S hmem
    simp only [List.mem_cons, List.mem_singleton, not_or] at hmem
    obtain ⟨h1, h2, h3, h4, h5, _⟩ := hmem
    simp [handle_call_tool, h1, h2, h3, h4, h5]
  · intro args S hT
    refine ⟨?_, ?_, ?_, ?_⟩ <;> simp [handle_call_tool, hT]
  · intro args S T hT hC
    refine ⟨?_, ?_⟩ <;> simp [handle_call_tool, hT, hC]

/-- C7 witness: a concrete unknown tool and a concrete missing argument. -/
theorem structural_errors_raise_witness :
    handle_call_tool "rename_note" [] [] =
      .error (.valueError ("Unknown tool: " ++ "rename_note")) ∧
    handle_call_tool "read_note" [("content", "x")] [("A", "a")] =
      .error (.keyError "title") :=
  ⟨structural_errors_raise.1 "rename_note" [] [] (by decide),
   (structural_errors_raise.2.1 [("content", "x")] [("A", "a")] rfl).2.1⟩

/-- C8: the storage round trip is the identity — saving any mapping and
loading yields the same mapping, and loading with no prior state yields
the empty mapping without failing. -/
theorem storage_round_trip :
    (∀ (m : Notes) (fs : FileState), load_notes (save_notes m fs) = some m) ∧
    load_notes none = some [] :=
  ⟨load_save, rfl⟩

/-- C9 counterexample: the collection `[("", "note")]` with an empty
title key is reachable from the empty collection — `create_note` accepts
the empty string as a title, so reachable collections need not have
non-empty title keys, contradicting the claim as stated. -/
theorem reachable_empty_title :
    Reachable [("", "note")] ∧ "" ∈ ([("", "note")] : Notes).map Prod.fst :=
  ⟨Reachable.step "create_note" [("title", ""), ("content", "note")] [] [("", "note")]
    [⟨"text", "Successfully created note ''"⟩] Reachable.init (by rfl), by simp⟩

/-- C9 (amended): in every collection reachable from the empty collection
through the five operations, title keys are unique, and a title is in the
key set exactly when it looks up to some content — absence of a title
means the note does not exist.  (Non-emptiness of titles is not enforced
by the code; contents are non-null by the typing of the collection.) -/
theorem reachable_titles_unique (S : Notes) (h : Reachable S) :
    (S.map Prod.fst).Nodup ∧
    ∀ T, T ∈ S.map Prod.fst ↔ (lookup? S T).isSome :=
  ⟨reachable_nodup S h, fun T => mem_keys_iff_lookup_isSome S T⟩

/-- C9 witness: the invariant at a concrete reachable collection. -/
theorem reachable_titles_unique_witness :
    (([("A", "x")] : Notes).map Prod.fst).Nodup ∧
    ∀ T, T ∈ ([("A", "x")] : Notes).map Prod.fst ↔ (lookup? [("A", "x")] T).isSome :=
  reachable_titles_unique [("A", "x")]
    (Reachable.step "create_note" [("title", "A"), ("content", "x")] [] [("A", "x")]
      [⟨"text", "Successfully created note 'A'"⟩] Reachable.init (by rfl))

/-- C10: each mutation that reaches its success path changes the saved
collection only at the given title — create appends exactly the one new
entry, update changes only that key's value keeping the key list, delete
removes only that key — and every other title's content is unchanged. -/
theorem mutation_frame (S : Notes) :
    (∀ T C args, getArg args "title" = some T → getArg args "content" = some C →
      lookup? S T = none →
      handle_call_tool "create_note" args S =
        .ok ([⟨"text", "Successfully created note '" ++ T ++ "'"⟩],
          some (S ++ [(T, C)])) ∧
      lookup? (S ++ [(T, C)]) T = some C ∧
      (∀ t, t ≠ T → lookup? (S ++ [(T, C)]) t = lookup? S t)) ∧
    (∀ T C C0 args, getArg args "title" = some T → getArg args "content" = some C →
      lookup? S T = some C0 →
      handle_call_tool "update_note" args S =
        .ok ([⟨"text", "Successfully updated note '" ++ T ++ "'"⟩],
          some (setKey S T C)) ∧
      lookup? (setKey S T C) T = some C ∧
      (setKey S T C).map Prod.fst = S.map Prod.fst ∧
      (∀ t, t ≠ T → lookup? (setKey S T C) t = lookup? S t)) ∧
    (∀ T C0 args, getArg args "title" = some T → lookup? S T = some C0 →
      handle_call_tool "delete_note" args S =
        .ok ([⟨"text", "Successfully deleted note '" ++ T ++ "'"⟩],
          some (delKey S T)) ∧
      (∀ t, t ≠ T → lookup? (delKey S T) t = lookup? S t) ∧
      ((S.map Prod.fst).Nodup → lookup? (delKey S T) T = none)) := by
  refine ⟨?_, ?_, ?_⟩
  · intro T C args hT hC habs
    refine ⟨?_, ?_, ?_⟩
    · rw [handle_create_absent S T C args hT hC habs, setKey_absent S T C habs]
    · rw [← setKey_absent S T C habs]
      exact lookup_setKey_self S T C
    · intro t ht
      rw [← setKey_absent S T C habs]
      exact lookup_setKey_ne S T C t ht
  · intro T C C0 args hT hC hpres
    exact ⟨handle_update_present S T C C0 args hT hC hpres,
      lookup_setKey_self S T C,
      keys_setKey_present S T C (by simp [hpres]),
      fun t ht => lookup_setKey_ne S T C t ht⟩
  · intro T C0 args hT hpres
    exact ⟨handle_delete_present S T C0 args hT hpres,
      fun t ht => lookup_delKey_ne S T t ht,
      fun hnd => lookup_delKey_self S T hnd⟩

/-- C10 witness: the create frame property at a concrete two-note store. -/
theorem mutation_frame_witness :
    handle_call_tool "create_note" [("title", "B"), ("content", "b")] [("A", "a")] =
      .ok ([⟨"text", "Successfully created note 'B'"⟩],
        some ([("A", "a")] ++ [("B", "b")])) ∧
    lookup? ([("A", "a")] ++ [("B", "b")]) "A" = lookup? [("A", "a")] "A" :=
  ⟨((mutation_frame [("A", "a")]).1 "B" "b" [("title", "B"), ("content", "b")]
      rfl rfl rfl).1,
   ((mutation_frame [("A", "a")]).1 "B" "b" [("title", "B"), ("content", "b")]
      rfl rfl rfl).2.2 "A" (by decide)⟩

end NotesServer
